import Mathlib

/-!
Verification of the wingman-server backend (`src/app.py`) against its
natural-language specification.  The Python handlers are shallowly embedded:
strings are Lean `String`s, JSON values are an inductive `PyVal`, byte
sequences are `List Nat`, and fallible code returns `Option`.  Library calls
that are outside the repository (PDF page extraction, OCR, the upstream
generative API, `json.loads`) enter as parameters or as per-page input lists,
exactly at the points where `app.py` calls them.
-/

namespace Wingman

/-! ### Python string primitives used by the handlers -/

/-- Code points that Python's `str.strip()` removes (the characters `c` with
`c.isspace()` in CPython 3: ASCII whitespace, the C1 separators, and the
Unicode space category). -/
def pyWsCodes : List Nat :=
  [9, 10, 11, 12, 13, 28, 29, 30, 31, 32, 133, 160, 5760,
   8192, 8193, 8194, 8195, 8196, 8197, 8198, 8199, 8200, 8201, 8202,
   8232, 8233, 8239, 8287, 12288]

/-- Whether `str.strip()` removes the character `c`. -/
def isPyWs (c : Char) : Bool :=
  pyWsCodes.contains c.toNat

/-- `str.strip()` on a list of characters: drop whitespace from both ends. -/
def pyStripL (l : List Char) : List Char :=
  ((l.dropWhile isPyWs).reverse.dropWhile isPyWs).reverse

/-- Python `s.strip()`. -/
def pyStrip (s : String) : String :=
  ⟨pyStripL s.data⟩

/-- ASCII lower-casing of a single character; models Python `str.lower()` on
the ASCII range (the only range the dispatch suffixes live in). -/
def asciiLower (c : Char) : Char :=
  if 65 ≤ c.toNat ∧ c.toNat ≤ 90 then Char.ofNat (c.toNat + 32) else c

/-- Python `s.lower()` (ASCII fragment). -/
def pyLower (s : String) : String :=
  ⟨s.data.map asciiLower⟩

/-- Does `p` occur at the very start of `s`? -/
def startsWithL (p s : List Char) : Bool :=
  match p, s with
  | [], _ => true
  | _ :: _, [] => false
  | a :: p', b :: s' => a = b && startsWithL p' s'

/-- Does `p` occur at the very end of `s`?  Models Python `str.endswith`. -/
def endsWithL (p s : List Char) : Bool :=
  startsWithL p.reverse s.reverse

/-- Python `s.endswith(suffix)`. -/
def pyEndsWith (s suffix : String) : Bool :=
  endsWithL suffix.data s.data

/-- Python `needle in haystack` for strings: substring containment. -/
def containsSub (needle : List Char) : List Char → Bool
  | [] => startsWithL needle []
  | c :: t => startsWithL needle (c :: t) || containsSub needle t

/-! ### `/extract/text` dispatch (`app.py` lines 106-146) -/

/-- The branch the `/extract/text` handler dispatches an upload to. -/
inductive ExtBranch where
  | pdf
  | docx
  | txt
  | image
  | unsupported
  deriving DecidableEq

/-- Dispatch of `extract_text`: lower-case the filename and test the suffix
chain `.pdf`, `.docx`, `.txt`, `.png`/`.jpg`/`.jpeg` in the order the code
tests them (`app.py` lines 111, 116, 131, 136, 140). -/
def extractDispatch (filename : String) : ExtBranch :=
  let l := pyLower filename
  if pyEndsWith l ".pdf" then .pdf
  else if pyEndsWith l ".docx" then .docx
  else if pyEndsWith l ".txt" then .txt
  else if pyEndsWith l ".png" || pyEndsWith l ".jpg" || pyEndsWith l ".jpeg" then .image
  else .unsupported

/-- JSON-ish values, as Flask/`json` hand them to the handlers. -/
inductive PyVal where
  | none
  | bool (b : Bool)
  | int (n : Int)
  | str (s : String)
  | list (l : List PyVal)
  | dict (d : List (String × PyVal))

/-- An HTTP response produced by a handler: a status code and a JSON body. -/
def HttpResp := Nat × PyVal

/-- The `/extract/text` response on an unsupported suffix
(`app.py` line 146). -/
def unsupportedResp : HttpResp :=
  (400, PyVal.dict [("error", PyVal.str "Unsupported file type")])

/-- The early response of `/extract/text` decided purely by the dispatch:
`some` of the 400 error when no suffix matches, `Option.none` when a branch
is entered. -/
def extractEarlyResp (filename : String) : Option HttpResp :=
  match extractDispatch filename with
  | .unsupported => some unsupportedResp
  | _ => Option.none

/-! ### Helper lemmas about the string primitives -/

theorem startsWithL_iff (p s : List Char) : startsWithL p s = true ↔ p <+: s := by
  induction p generalizing s with
  | nil => simp [startsWithL]
  | cons a p' ih =>
    cases s with
    | nil => simp [startsWithL]
    | cons b s' =>
      rw [startsWithL, Bool.and_eq_true, decide_eq_true_eq, ih,
        List.cons_prefix_cons]

theorem endsWithL_iff (p s : List Char) : endsWithL p s = true ↔ p <:+ s := by
  rw [endsWithL, startsWithL_iff]
  constructor
  · intro h
    have h2 := (@List.reverse_suffix Char p.reverse s.reverse).mpr h
    simpa using h2
  · intro h
    exact (@List.reverse_suffix Char p.reverse s.reverse).mp (by simpa using h)

theorem endsWith_excl₁ (a b s : List Char) (ha : endsWithL a s = true)
    (hlen : b.length ≤ a.length) (hne : endsWithL b a = false) :
    endsWithL b s = false := by
  by_contra h
  have hb : endsWithL b s = true := by
    cases hcase : endsWithL b s <;> simp_all
  have h1 := (endsWithL_iff a s).mp ha
  have h2 := (endsWithL_iff b s).mp hb
  have h3 : b <:+ a := List.suffix_of_suffix_length_le h2 h1 hlen
  rw [(endsWithL_iff b a).mpr h3] at hne
  exact Bool.true_eq_false.mp hne

theorem endsWith_excl₂ (a b s : List Char) (ha : endsWithL a s = true)
    (hlen : a.length ≤ b.length) (hne : endsWithL a b = false) :
    endsWithL b s = false := by
  by_contra h
  have hb : endsWithL b s = true := by
    cases hcase : endsWithL b s <;> simp_all
  have h1 := (endsWithL_iff a s).mp ha
  have h2 := (endsWithL_iff b s).mp hb
  have h3 : a <:+ b := List.suffix_of_suffix_length_le h1 h2 hlen
  rw [(endsWithL_iff a b).mpr h3] at hne
  exact Bool.true_eq_false.mp hne

theorem toNat_ofNat_valid (n : Nat) (h : n.isValidChar) :
    (Char.ofNat n).toNat = n := by
  unfold Char.ofNat
  rw [dif_pos h]
  rfl

theorem asciiLower_idem (c : Char) : asciiLower (asciiLower c) = asciiLower c := by
  unfold asciiLower
  by_cases h : 65 ≤ c.toNat ∧ c.toNat ≤ 90
  · rw [if_pos h]
    have hv : Nat.isValidChar (c.toNat + 32) := Or.inl (by omega)
    rw [toNat_ofNat_valid _ hv, if_neg (by omega)]
  · rw [if_neg h, if_neg h]

theorem pyLower_idem (s : String) : pyLower (pyLower s) = pyLower s := by
  apply String.ext
  show List.map asciiLower (List.map asciiLower s.data) = List.map asciiLower s.data
  rw [List.map_map]
  exact List.map_congr_left (fun a _ => asciiLower_idem a)

/-! ### PDF branch of `/extract/text` (`app.py` lines 116-128, 181-188)

The PDF parsing and OCR libraries are outside the repository; the branch is
modelled as a function of the per-page text-layer results (`page.extract_text()`
for each page, in page order) and the per-page OCR results
(`pytesseract.image_to_string` on each rasterized page, in page order). -/

/-- The text-layer accumulation loop of the PDF branch: for each page, if the
extraction is truthy (non-empty), append it followed by `"\n"`. -/
def pdfTextLayer (pages : List String) : String :=
  pages.foldl (fun text extracted =>
    if extracted ≠ "" then text ++ (extracted ++ "\n") else text) ""

/-- The `ocr_pdf` loop: append every page's OCR output followed by `"\n"`,
in page order, with no emptiness filter. -/
def ocr_pdf (ocrPages : List String) : String :=
  ocrPages.foldl (fun text t => text ++ (t ++ "\n")) ""

/-- The PDF branch: build the text layer; if its trimmed form is empty fall
back to `ocr_pdf`; return the trimmed text together with a flag recording
whether the OCR fallback ran. -/
def extractPdf (pages ocrPages : List String) : String × Bool :=
  let text := pdfTextLayer pages
  if pyStrip text = "" then (pyStrip (ocr_pdf ocrPages), true)
  else (pyStrip text, false)

/-- Plain concatenation of a list of strings, used to state what the
accumulation loops compute. -/
def specConcat : List String → String
  | [] => ""
  | s :: r => s ++ specConcat r

theorem foldl_append_concat (l : List String) (acc : String) :
    l.foldl (fun a t => a ++ (t ++ "\n")) acc
      = acc ++ specConcat (l.map (fun t => t ++ "\n")) := by
  induction l generalizing acc with
  | nil => simp [specConcat]
  | cons s r ih => simp [specConcat, ih, String.append_assoc]

theorem foldl_filter_concat (l : List String) (acc : String) :
    l.foldl (fun a p => if p ≠ "" then a ++ (p ++ "\n") else a) acc
      = acc ++ specConcat ((l.filter (fun p => p ≠ "")).map (fun p => p ++ "\n")) := by
  induction l generalizing acc with
  | nil => simp [specConcat]
  | cons s r ih =>
    rw [List.foldl_cons, List.filter_cons]
    by_cases h : s = ""
    · rw [if_neg (by simp [h]), if_neg (by simp [h])]
      exact ih acc
    · rw [if_pos h, if_pos (by simpa using h), List.map_cons, specConcat]
      exact (ih (acc ++ (s ++ "\n"))).trans (String.append_assoc _ _ _)

/-! ### `/analyze` precondition gate (`app.py` lines 24-30) -/

/-- Truthiness of a JSON value, as Python's `bool()` computes it. -/
def pyTruthy : PyVal → Bool
  | .none => false
  | .bool b => b
  | .int n => n ≠ 0
  | .str s => s ≠ ""
  | .list l => !l.isEmpty
  | .dict d => !d.isEmpty

/-- First-match key lookup in a JSON object. -/
def dlookup (d : List (String × PyVal)) (k : String) : Option PyVal :=
  match d with
  | [] => Option.none
  | (k', v) :: r => if k' = k then some v else dlookup r k

/-- The `/analyze` 400 response (`app.py` line 30). -/
def missingFieldsResp : HttpResp :=
  (400, PyVal.dict [("error", PyVal.str "Missing fields")])

/-- Outcome of the `/analyze` precondition check: whether control reaches the
external `requests.post` call, and the early response when it does not. -/
structure AnalyzeGate where
  callMade : Bool
  early : Option HttpResp

/-- The `/analyze` precondition: read the three fields with `data.get` (absent
means `None`), and return 400 before any external call unless all three are
truthy (`if not all([...])`). -/
def analyzeGate (d : List (String × PyVal)) : AnalyzeGate :=
  let job_title := (dlookup d "jobTitle").getD PyVal.none
  let job_description := (dlookup d "jobDescription").getD PyVal.none
  let extracted_text := (dlookup d "extractedText").getD PyVal.none
  if pyTruthy job_title && pyTruthy job_description && pyTruthy extracted_text then
    ⟨true, Option.none⟩
  else ⟨false, some missingFieldsResp⟩

/-! ### `/analyze` upstream response cleaning (`app.py` lines 88-100) -/

/-- The backtick character (code point 96). -/
def btick : Char := Char.ofNat 96

/-- Line 92, `re.sub(r"^```json", "", text_output, flags=re.IGNORECASE)`:
drop a leading ````` ```json ````` (tag letters in any ASCII case). -/
def stripJsonTag (t : List Char) : List Char :=
  if (t.take 7).map asciiLower = "```json".data then t.drop 7 else t

/-- Line 93, `re.sub(r"^```", "", text_output)`: drop a leading ````` ``` `````. -/
def stripLeadTicks (t : List Char) : List Char :=
  if startsWithL "```".data t then t.drop 3 else t

/-- Drop the last `n` characters. -/
def dropRightL (t : List Char) (n : Nat) : List Char :=
  (t.reverse.drop n).reverse

/-- Line 94, `re.sub(r"```$", "", text_output)`: drop a trailing ````` ``` `````;
Python's `$` also matches just before a final newline, so a ````` ``` `````
followed by one final `"\n"` is removed as well, keeping the newline. -/
def stripTrailTicks (t : List Char) : List Char :=
  if endsWithL "```".data t then dropRightL t 3
  else if endsWithL ("```\n").data t then dropRightL t 4 ++ ['\n']
  else t

/-- Lines 91-95: if the (already stripped) text starts with ````` ``` `````,
remove the fence markers and strip again; otherwise leave it unchanged. -/
def cleanFencesL (t : List Char) : List Char :=
  if startsWithL "```".data t then
    pyStripL (stripTrailTicks (stripLeadTicks (stripJsonTag t)))
  else t

/-- The full cleaning pipeline applied to the text extracted from the
upstream 200 response: `.strip()` (line 88) followed by fence removal
(lines 91-95). -/
def cleanUpstream (s : String) : String :=
  ⟨cleanFencesL (pyStripL s.data)⟩

/-- Python `v.get(k, dflt)`: key lookup with default on a dict, an
`AttributeError` (modelled as `Option.none`) on anything else. -/
def dictGet (v : PyVal) (k : String) (dflt : PyVal) : Option PyVal :=
  match v with
  | .dict d => some ((dlookup d k).getD dflt)
  | _ => Option.none

/-- Python `v[0]`: first element of a list, one-character string of a
non-empty string; an exception (`Option.none`) otherwise. -/
def index0 : PyVal → Option PyVal
  | .list (x :: _) => some x
  | .str ⟨c :: _⟩ => some (.str ⟨[c]⟩)
  | _ => Option.none

/-- Calling a `str` method (`.strip()`) requires the value to be a string;
anything else raises (`Option.none`). -/
def asStr : PyVal → Option String
  | .str s => some s
  | _ => Option.none

/-- Line 88 without the final `.strip()`:
`res.json().get("candidates", [{}])[0].get("content", {}).get("parts", [{}])[0].get("text", "")`
applied to the upstream 200 body; `Option.none` models an uncaught
exception. -/
def extractTextRaw (body : PyVal) : Option String := do
  let cands ← dictGet body "candidates" (PyVal.list [PyVal.dict []])
  let c0 ← index0 cands
  let content ← dictGet c0 "content" (PyVal.dict [])
  let parts ← dictGet content "parts" (PyVal.list [PyVal.dict []])
  let p0 ← index0 parts
  let t ← dictGet p0 "text" (PyVal.str "")
  asStr t

/-- The `/analyze` 500 response on unparseable upstream text
(`app.py` line 100). -/
def invalidJsonResp (raw : String) : HttpResp :=
  (500, PyVal.dict [("error", PyVal.str "Invalid JSON from Gemini"),
    ("raw", PyVal.str raw)])

/-- The `/analyze` handler from the upstream-200 point on (lines 88-102):
extract the text part, strip it, remove fences, parse with `json.loads`
(passed in as `parse`), and answer 500 carrying the cleaned text on parse
failure, or 200 with the parsed value; `Option.none` models an uncaught
exception. -/
def on200 (parse : String → Option PyVal) (body : PyVal) : Option HttpResp :=
  match extractTextRaw body with
  | Option.none => Option.none
  | some raw =>
    let text_output := cleanUpstream raw
    match parse text_output with
    | Option.none => some (invalidJsonResp text_output)
    | some parsed => some (200, parsed)

/-- The upstream-200 bodies covered by C9: the `candidates` key is absent, or
the first candidate lacks `content`, or the content lacks `parts`, or the
first part lacks `text`. -/
def C9Shape (body : PyVal) : Prop :=
  ∃ d, body = PyVal.dict d ∧
    (dlookup d "candidates" = Option.none ∨
      ∃ c0 rest, dlookup d "candidates" = some (PyVal.list (PyVal.dict c0 :: rest)) ∧
        (dlookup c0 "content" = Option.none ∨
          ∃ ct, dlookup c0 "content" = some (PyVal.dict ct) ∧
            (dlookup ct "parts" = Option.none ∨
              ∃ p0 prest,
                dlookup ct "parts" = some (PyVal.list (PyVal.dict p0 :: prest)) ∧
                  dlookup p0 "text" = Option.none)))

/-! ### `/text/to/docx` (`app.py` lines 152-178) -/

/-- Python `text.replace("\r\n", "\n")`: left-to-right, non-overlapping. -/
def replaceCRLF : List Char → List Char
  | '\r' :: '\n' :: rest => '\n' :: replaceCRLF rest
  | c :: rest => c :: replaceCRLF rest
  | [] => []

/-- Python `text.split("\n\n")`: split on non-overlapping occurrences of two
consecutive newlines, scanning left to right. -/
def splitOnNN : List Char → List (List Char)
  | '\n' :: '\n' :: rest => [] :: splitOnNN rest
  | c :: rest =>
    match splitOnNN rest with
    | h :: t => (c :: h) :: t
    | [] => [[c]]
  | [] => [[]]

/-- Line 163: `[p.strip() for p in text.replace("\r\n", "\n").split("\n\n")
if p.strip()]`. -/
def splitParas (t : String) : List String :=
  ((splitOnNN (replaceCRLF t.data)).map (fun l => (⟨pyStripL l⟩ : String))).filter
    (fun p => p ≠ "")

/-- Python `==` between a JSON value and a string. -/
def pyEqStr (v : PyVal) (s : String) : Bool :=
  match v with
  | .str t => t = s
  | _ => false

/-- Python `k in v`: substring test on strings, membership on lists, key test
on dicts, `TypeError` (`Option.none`) on anything else. -/
def pyContains (v : PyVal) (k : String) : Option Bool :=
  match v with
  | .str s => some (containsSub k.data s.data)
  | .list l => some (l.any (fun x => pyEqStr x k))
  | .dict d => some ((dlookup d k).isSome)
  | _ => Option.none

/-- Observable outcome of `/text/to/docx`: the 400 `{"error": "No text
provided"}` response, or a sent `.docx` attachment described by its paragraph
texts in order. -/
inductive DocxResp where
  | badRequest
  | sent (paragraphs : List String)
  deriving DecidableEq

/-- The `/text/to/docx` handler on a parsed request body (`PyVal.none` when
no JSON body was supplied): `if not data or "text" not in data` guards the
400; otherwise `data["text"]` is split into paragraphs and the document is
sent.  `Option.none` models an uncaught exception (HTTP 500): `in` on a
non-container, subscripting a non-dict by a string, or calling `.replace` on
a non-string value. -/
def text_to_docx (data : PyVal) : Option DocxResp :=
  if !pyTruthy data then some .badRequest
  else
    match pyContains data "text" with
    | Option.none => Option.none
    | some false => some .badRequest
    | some true =>
      match data with
      | .dict d =>
        match dlookup d "text" with
        | some (.str text) => some (.sent (splitParas text))
        | some _ => Option.none
        | Option.none => Option.none
      | _ => Option.none

/-! ### TXT branch of `/extract/text` (`app.py` line 137)

`file_bytes.decode("utf-8")` is modelled by a strict UTF-8 decoder over byte
lists: it rejects continuation-less lead bytes, overlong encodings (including
lead bytes `0xC0`/`0xC1` and out-of-range `0xE0`/`0xF0` continuations),
surrogates (`0xED` with a high continuation), code points above `0x10FFFF`
(`0xF4` with a high continuation, lead bytes `0xF5` and up), and truncated
sequences — exactly the inputs CPython's strict `utf-8` codec rejects. -/

/-- UTF-8 encoding of a single Unicode scalar value. -/
def utf8EncodeCp (n : Nat) : List Nat :=
  if n < 0x80 then [n]
  else if n < 0x800 then [0xC0 + n / 64, 0x80 + n % 64]
  else if n < 0x10000 then [0xE0 + n / 4096, 0x80 + n / 64 % 64, 0x80 + n % 64]
  else [0xF0 + n / 262144, 0x80 + n / 4096 % 64, 0x80 + n / 64 % 64, 0x80 + n % 64]

/-- The decoded scalar value of a two-byte UTF-8 sequence. -/
def val2 (b b1 : Nat) : Nat := (b - 0xC0) * 64 + (b1 - 0x80)

/-- The decoded scalar value of a three-byte UTF-8 sequence. -/
def val3 (b b1 b2 : Nat) : Nat := (b - 0xE0) * 4096 + (b1 - 0x80) * 64 + (b2 - 0x80)

/-- The decoded scalar value of a four-byte UTF-8 sequence. -/
def val4 (b b1 b2 b3 : Nat) : Nat :=
  (b - 0xF0) * 262144 + (b1 - 0x80) * 4096 + (b2 - 0x80) * 64 + (b3 - 0x80)

/-- Strict UTF-8 decoding of a byte list into code points; `Option.none` is a
`UnicodeDecodeError`.  The cases are split by how many bytes remain, and in
each arity the lead-byte classes are tried in order: ASCII, then a valid
two-byte sequence (lead `0xC2`-`0xDF`), three-byte (lead `0xE0`-`0xEF`, with
the `0xE0` overlong and `0xED` surrogate restrictions), four-byte (lead
`0xF0`-`0xF4`, with the `0xF0` overlong and `0xF4` range restrictions);
anything else — lone continuation bytes, overlong leads `0xC0`/`0xC1`, leads
above `0xF4`, bad continuations, truncated tails — fails. -/
def utf8DecodeCp : List Nat → Option (List Nat)
  | [] => some []
  | [b] =>
    if b < 0x80 then some [b] else Option.none
  | [b, b1] =>
    if b < 0x80 then (utf8DecodeCp [b1]).map (fun r => b :: r)
    else if 0xC2 ≤ b ∧ b < 0xE0 ∧ 0x80 ≤ b1 ∧ b1 < 0xC0 then some [val2 b b1]
    else Option.none
  | [b, b1, b2] =>
    if b < 0x80 then (utf8DecodeCp [b1, b2]).map (fun r => b :: r)
    else if 0xC2 ≤ b ∧ b < 0xE0 ∧ 0x80 ≤ b1 ∧ b1 < 0xC0 then
      (utf8DecodeCp [b2]).map (fun r => val2 b b1 :: r)
    else if 0xE0 ≤ b ∧ b < 0xF0 ∧ 0x80 ≤ b1 ∧ b1 < 0xC0 ∧ (b = 0xE0 → 0xA0 ≤ b1) ∧
        (b = 0xED → b1 < 0xA0) ∧ 0x80 ≤ b2 ∧ b2 < 0xC0 then some [val3 b b1 b2]
    else Option.none
  | b :: b1 :: b2 :: b3 :: l =>
    if b < 0x80 then (utf8DecodeCp (b1 :: b2 :: b3 :: l)).map (fun r => b :: r)
    else if 0xC2 ≤ b ∧ b < 0xE0 ∧ 0x80 ≤ b1 ∧ b1 < 0xC0 then
      (utf8DecodeCp (b2 :: b3 :: l)).map (fun r => val2 b b1 :: r)
    else if 0xE0 ≤ b ∧ b < 0xF0 ∧ 0x80 ≤ b1 ∧ b1 < 0xC0 ∧ (b = 0xE0 → 0xA0 ≤ b1) ∧
        (b = 0xED → b1 < 0xA0) ∧ 0x80 ≤ b2 ∧ b2 < 0xC0 then
      (utf8DecodeCp (b3 :: l)).map (fun r => val3 b b1 b2 :: r)
    else if 0xF0 ≤ b ∧ b < 0xF5 ∧ 0x80 ≤ b1 ∧ b1 < 0xC0 ∧ (b = 0xF0 → 0x90 ≤ b1) ∧
        (b = 0xF4 → b1 < 0x90) ∧ 0x80 ≤ b2 ∧ b2 < 0xC0 ∧ 0x80 ≤ b3 ∧ b3 < 0xC0 then
      (utf8DecodeCp l).map (fun r => val4 b b1 b2 b3 :: r)
    else Option.none

/-- UTF-8 encoding of a character sequence. -/
def encodeChars : List Char → List Nat
  | [] => []
  | c :: cs => utf8EncodeCp c.toNat ++ encodeChars cs

/-- UTF-8 encoding of a string. -/
def utf8Encode (s : String) : List Nat :=
  encodeChars s.data

/-- The TXT branch: `file_bytes.decode("utf-8").strip()`; `Option.none`
models the `UnicodeDecodeError` the handler turns into an HTTP 500. -/
def extractTxt (bs : List Nat) : Option String :=
  (utf8DecodeCp bs).map (fun cps => pyStrip ⟨cps.map Char.ofNat⟩)

end Wingman

open Wingman

/-- C1: the `/extract/text` handler dispatches by the lower-cased filename
suffix — `.pdf` to the PDF branch, `.docx` to DOCX, `.txt` to TXT,
`.png`/`.jpg`/`.jpeg` to image OCR, and any other suffix yields the
`UnsupportedType` 400 response with body `{"error": "Unsupported file type"}`;
dispatch is case-insensitive in the suffix. -/
theorem C1_extract_dispatch (fn : String) :
    (pyEndsWith (pyLower fn) ".pdf" = true → extractDispatch fn = ExtBranch.pdf) ∧
    (pyEndsWith (pyLower fn) ".docx" = true → extractDispatch fn = ExtBranch.docx) ∧
    (pyEndsWith (pyLower fn) ".txt" = true → extractDispatch fn = ExtBranch.txt) ∧
    ((pyEndsWith (pyLower fn) ".png" = true ∨ pyEndsWith (pyLower fn) ".jpg" = true ∨
        pyEndsWith (pyLower fn) ".jpeg" = true) → extractDispatch fn = ExtBranch.image) ∧
    (pyEndsWith (pyLower fn) ".pdf" = false → pyEndsWith (pyLower fn) ".docx" = false →
      pyEndsWith (pyLower fn) ".txt" = false → pyEndsWith (pyLower fn) ".png" = false →
      pyEndsWith (pyLower fn) ".jpg" = false → pyEndsWith (pyLower fn) ".jpeg" = false →
      extractDispatch fn = ExtBranch.unsupported ∧
        extractEarlyResp fn = some unsupportedResp) ∧
    extractDispatch (pyLower fn) = extractDispatch fn := by
  set l := pyLower fn with hl
  refine ⟨?_, ?_, ?_, ?_, ?_, ?_⟩
  · intro h
    simp [extractDispatch, ← hl, h]
  · intro h
    have hpdf : pyEndsWith l ".pdf" = false :=
      endsWith_excl₁ ".docx".data ".pdf".data l.data h (by decide) (by decide)
    simp [extractDispatch, ← hl, h, hpdf]
  · intro h
    have hpdf : pyEndsWith l ".pdf" = false :=
      endsWith_excl₁ ".txt".data ".pdf".data l.data h (by decide) (by decide)
    have hdocx : pyEndsWith l ".docx" = false :=
      endsWith_excl₂ ".txt".data ".docx".data l.data h (by decide) (by decide)
    simp [extractDispatch, ← hl, h, hpdf, hdocx]
  · rintro (h | h | h)
    · have hpdf : pyEndsWith l ".pdf" = false :=
        endsWith_excl₁ ".png".data ".pdf".data l.data h (by decide) (by decide)
      have hdocx : pyEndsWith l ".docx" = false :=
        endsWith_excl₂ ".png".data ".docx".data l.data h (by decide) (by decide)
      have htxt : pyEndsWith l ".txt" = false :=
        endsWith_excl₁ ".png".data ".txt".data l.data h (by decide) (by decide)
      simp [extractDispatch, ← hl, h, hpdf, hdocx, htxt]
    · have hpdf : pyEndsWith l ".pdf" = false :=
        endsWith_excl₁ ".jpg".data ".pdf".data l.data h (by decide) (by decide)
      have hdocx : pyEndsWith l ".docx" = false :=
        endsWith_excl₂ ".jpg".data ".docx".data l.data h (by decide) (by decide)
      have htxt : pyEndsWith l ".txt" = false :=
        endsWith_excl₁ ".jpg".data ".txt".data l.data h (by decide) (by decide)
      simp [extractDispatch, ← hl, h, hpdf, hdocx, htxt]
    · have hpdf : pyEndsWith l ".pdf" = false :=
        endsWith_excl₁ ".jpeg".data ".pdf".data l.data h (by decide) (by decide)
      have hdocx : pyEndsWith l ".docx" = false :=
        endsWith_excl₁ ".jpeg".data ".docx".data l.data h (by decide) (by decide)
      have htxt : pyEndsWith l ".txt" = false :=
        endsWith_excl₁ ".jpeg".data ".txt".data l.data h (by decide) (by decide)
      simp [extractDispatch, ← hl, h, hpdf, hdocx, htxt]
  · intro h1 h2 h3 h4 h5 h6
    constructor
    · simp [extractDispatch, ← hl, h1, h2, h3, h4, h5, h6]
    · simp [extractEarlyResp, extractDispatch, ← hl, h1, h2, h3, h4, h5, h6]
  · simp only [extractDispatch, hl, pyLower_idem]

/-- C1 witness: the dispatch theorem applied to concrete filenames. -/
theorem C1_extract_dispatch_witness :
    extractDispatch "Resume.PDF" = ExtBranch.pdf ∧
    extractDispatch "notes.TxT" = ExtBranch.txt ∧
    extractDispatch "scan.webp" = ExtBranch.unsupported ∧
    extractEarlyResp "scan.webp" = some unsupportedResp := by
  have h1 := (C1_extract_dispatch "Resume.PDF").1 (by decide)
  have h2 := (C1_extract_dispatch "notes.TxT").2.2.1 (by decide)
  have h3 := (C1_extract_dispatch "scan.webp").2.2.2.2.1 (by decide) (by decide)
    (by decide) (by decide) (by decide) (by decide)
  exact ⟨h1, h2, h3.1, h3.2⟩

/-- C2: the PDF branch concatenates the non-empty per-page text-layer
extractions each followed by a newline; the OCR fallback runs if and only if
the trimmed concatenation is empty; `ocr_pdf` concatenates each page's OCR
output (in page order) with a trailing newline; and a PDF whose text layer
yields non-whitespace text returns that text trimmed, without invoking OCR. -/
theorem C2_pdf_branch (pages ocrPages : List String) :
    pdfTextLayer pages
        = specConcat ((pages.filter (fun p => p ≠ "")).map (fun p => p ++ "\n")) ∧
    ocr_pdf ocrPages = specConcat (ocrPages.map (fun t => t ++ "\n")) ∧
    ((extractPdf pages ocrPages).2 = true ↔ pyStrip (pdfTextLayer pages) = "") ∧
    (pyStrip (pdfTextLayer pages) ≠ "" →
      extractPdf pages ocrPages = (pyStrip (pdfTextLayer pages), false)) ∧
    (pyStrip (pdfTextLayer pages) = "" →
      extractPdf pages ocrPages = (pyStrip (ocr_pdf ocrPages), true)) := by
  refine ⟨?_, ?_, ?_, ?_, ?_⟩
  · exact (foldl_filter_concat pages "").trans (String.empty_append _)
  · exact (foldl_append_concat ocrPages "").trans (String.empty_append _)
  · unfold extractPdf
    by_cases h : pyStrip (pdfTextLayer pages) = "" <;> simp [h]
  · intro h
    unfold extractPdf
    simp [h]
  · intro h
    unfold extractPdf
    simp [h]

/-- C2 witness: a text-layer PDF returns its trimmed text without OCR, and a
PDF with a whitespace-only text layer falls back to the OCR output. -/
theorem C2_pdf_branch_witness :
    extractPdf ["hello", ""] ["ignored"] = ("hello", false) ∧
    extractPdf ["", " "] ["ocr out"] = ("ocr out", true) := by
  constructor
  · have h := (C2_pdf_branch ["hello", ""] ["ignored"]).2.2.2.1 (by decide)
    rw [h]
    rfl
  · have h := (C2_pdf_branch ["", " "] ["ocr out"]).2.2.2.2 (by decide)
    rw [h]
    rfl

/-- C3: `/analyze` returns the 400 `MissingFields` response and performs no
external call whenever any of `jobTitle`, `jobDescription`, `extractedText`
is absent or falsy; the upstream request is sent exactly when all three are
truthy. -/
theorem C3_analyze_missing_fields (d : List (String × PyVal)) :
    ((pyTruthy ((dlookup d "jobTitle").getD PyVal.none) = false ∨
      pyTruthy ((dlookup d "jobDescription").getD PyVal.none) = false ∨
      pyTruthy ((dlookup d "extractedText").getD PyVal.none) = false) →
        analyzeGate d = ⟨false, some missingFieldsResp⟩) ∧
    ((pyTruthy ((dlookup d "jobTitle").getD PyVal.none) = true ∧
      pyTruthy ((dlookup d "jobDescription").getD PyVal.none) = true ∧
      pyTruthy ((dlookup d "extractedText").getD PyVal.none) = true) →
        analyzeGate d = ⟨true, Option.none⟩) := by
  constructor
  · intro h
    unfold analyzeGate
    rcases h with h | h | h <;> simp [h]
  · rintro ⟨h1, h2, h3⟩
    unfold analyzeGate
    simp [h1, h2, h3]

/-- C3 witness: a request with an empty `jobDescription` is rejected with 400
before the external call; a request with all three fields non-empty reaches
the external call. -/
theorem C3_analyze_missing_fields_witness :
    analyzeGate [("jobTitle", PyVal.str "Dev"), ("jobDescription", PyVal.str "")]
        = ⟨false, some missingFieldsResp⟩ ∧
    analyzeGate [("jobTitle", PyVal.str "Dev"), ("jobDescription", PyVal.str "Build"),
        ("extractedText", PyVal.str "resume")]
        = ⟨true, Option.none⟩ := by
  constructor
  · exact (C3_analyze_missing_fields _).1 (Or.inr (Or.inl rfl))
  · exact (C3_analyze_missing_fields _).2 ⟨rfl, rfl, rfl⟩

theorem head_all_of (p : Char → Bool) (l : List Char) (h : l.head?.all p = true) :
    ∀ c, l.head? = some c → p c = true := by
  intro c hc
  rw [hc] at h
  simpa using h

theorem startsWith_fence_false (l : List Char)
    (h : l.head?.all (fun c => c ≠ btick) = true) :
    startsWithL "```".data l = false := by
  have hd3 : "```".data = [btick, btick, btick] := by decide
  rw [hd3]
  cases l with
  | nil => rfl
  | cons c r =>
    have hc : c ≠ btick := by simpa using head_all_of _ _ h c rfl
    simp [startsWithL, Ne.symm hc]

theorem dropWhile_head_false (p : Char → Bool) (l : List Char)
    (h : ∀ c, l.head? = some c → p c = false) : l.dropWhile p = l := by
  cases l with
  | nil => rfl
  | cons c r => rw [List.dropWhile_cons, if_neg (by simp [h c rfl])]

theorem pyStripL_eq_self (l : List Char)
    (h1 : ∀ c, l.head? = some c → isPyWs c = false)
    (h2 : ∀ c, l.reverse.head? = some c → isPyWs c = false) :
    pyStripL l = l := by
  unfold pyStripL
  rw [dropWhile_head_false _ _ h1, dropWhile_head_false _ _ h2, List.reverse_reverse]

theorem cleanFencesL_fenced (td jd : List Char)
    (htag : td.map asciiLower = ['j', 's', 'o', 'n'] ∨
      (td = [] ∧ jd.head?.all (fun c => asciiLower c ≠ 'j') = true))
    (hne : jd ≠ [])
    (hhead : jd.head?.all (fun c => c ≠ btick) = true) :
    cleanFencesL (btick :: btick :: btick :: (td ++ (jd ++ [btick, btick, btick])))
      = pyStripL jd := by
  obtain ⟨x, jd', rfl⟩ := List.exists_cons_of_ne_nil hne
  simp only [List.cons_append]
  have hx : x ≠ btick := by simpa using head_all_of _ _ hhead x rfl
  have hd3 : "```".data = [btick, btick, btick] := by decide
  have hdj : "```json".data = [btick, btick, btick, 'j', 's', 'o', 'n'] := by decide
  have hstart : startsWithL "```".data
      (btick :: btick :: btick :: (td ++ (x :: (jd' ++ [btick, btick, btick]))))
      = true := by
    rw [hd3]
    simp [startsWithL]
  rw [cleanFencesL, if_pos hstart]
  have hlead : stripLeadTicks (x :: (jd' ++ [btick, btick, btick]))
      = x :: (jd' ++ [btick, btick, btick]) := by
    rw [stripLeadTicks, if_neg]
    rw [hd3]
    simp [startsWithL, Ne.symm hx]
  have hmid : stripLeadTicks (stripJsonTag
      (btick :: btick :: btick :: (td ++ (x :: (jd' ++ [btick, btick, btick])))))
      = x :: (jd' ++ [btick, btick, btick]) := by
    rcases htag with htag | ⟨rfl, hjson⟩
    · cases td with
      | nil => simp at htag
      | cons a t1 =>
        cases t1 with
        | nil => simp at htag
        | cons b t2 =>
          cases t2 with
          | nil => simp at htag
          | cons c t3 =>
            cases t3 with
            | nil => simp at htag
            | cons d t4 =>
              cases t4 with
              | cons e t5 => simp at htag
              | nil =>
                simp only [List.map_cons, List.map_nil, List.cons.injEq,
                  and_true] at htag
                obtain ⟨ha, hb, hc, hd⟩ := htag
                have hcondt : (((btick :: btick :: btick :: ([a, b, c, d] ++
                    (x :: (jd' ++ [btick, btick, btick])))).take 7).map asciiLower)
                    = "```json".data := by
                  have hred : (((btick :: btick :: btick :: ([a, b, c, d] ++
                      (x :: (jd' ++ [btick, btick, btick])))).take 7).map asciiLower)
                      = [asciiLower btick, asciiLower btick, asciiLower btick,
                        asciiLower a, asciiLower b, asciiLower c, asciiLower d] := rfl
                  rw [hred, ha, hb, hc, hd, hdj]
                  rfl
                rw [stripJsonTag, if_pos hcondt]
                have hdrop : (btick :: btick :: btick :: ([a, b, c, d] ++
                    (x :: (jd' ++ [btick, btick, btick])))).drop 7
                    = x :: (jd' ++ [btick, btick, btick]) := rfl
                rw [hdrop, hlead]
    · have hxj : asciiLower x ≠ 'j' := by
        simpa using head_all_of _ _ hjson x rfl
      have hcondf : ¬((((btick :: btick :: btick :: ([] ++
          (x :: (jd' ++ [btick, btick, btick])))).take 7).map asciiLower)
          = "```json".data) := by
        have h7 : (((btick :: btick :: btick :: ([] ++
            (x :: (jd' ++ [btick, btick, btick])))).take 7).map asciiLower)
            = asciiLower btick :: asciiLower btick :: asciiLower btick ::
              asciiLower x :: ((jd' ++ [btick, btick, btick]).take 3).map asciiLower := rfl
        rw [h7, hdj]
        intro heq
        have hab : asciiLower btick = btick := by decide
        rw [hab] at heq
        simp only [List.cons.injEq, true_and] at heq
        exact hxj heq.1
      rw [stripJsonTag, if_neg hcondf]
      have hid : btick :: btick :: btick :: ([] ++
          (x :: (jd' ++ [btick, btick, btick])))
          = btick :: btick :: btick :: (x :: (jd' ++ [btick, btick, btick])) := rfl
      rw [hid, stripLeadTicks, if_pos (by rw [hd3]; simp [startsWithL])]
      rfl
  rw [hmid]
  have hrev : (x :: (jd' ++ [btick, btick, btick])).reverse
      = btick :: (btick :: (btick :: (jd'.reverse ++ [x]))) := by
    simp
  have htrail : stripTrailTicks (x :: (jd' ++ [btick, btick, btick])) = x :: jd' := by
    rw [stripTrailTicks, if_pos]
    · rw [dropRightL, hrev]
      simp
    · rw [endsWithL, hd3, hrev]
      simp [startsWithL]
  rw [htrail]

/-- C4: cleaning an upstream text that wraps a JSON text `j` in a fenced code
block (leading ````` ``` ````` with an optional `json` tag in any ASCII letter
case, trailing ````` ``` `````) yields the same string as cleaning the
unwrapped `j` (namely `j` trimmed), so JSON parsing of the fenced form equals
JSON parsing of the plain form.  The hypotheses record that `j` is a JSON
text: non-empty, not starting with a backtick (before or after trimming),
and, when the tag is absent, not starting with a `json` tag of its own. -/
theorem C4_fence_clean (tag j : String)
    (htag : tag.data.map asciiLower = ['j', 's', 'o', 'n'] ∨
      (tag = "" ∧ j.data.head?.all (fun c => asciiLower c ≠ 'j') = true))
    (hne : j ≠ "")
    (hhead : j.data.head?.all (fun c => c ≠ btick) = true)
    (hstrip : (pyStripL j.data).head?.all (fun c => c ≠ btick) = true) :
    cleanUpstream ("```" ++ tag ++ j ++ "```") = cleanUpstream j ∧
    cleanUpstream j = pyStrip j ∧
    ∀ parse : String → Option PyVal,
      parse (cleanUpstream ("```" ++ tag ++ j ++ "```")) = parse (cleanUpstream j) := by
  have hjdne : j.data ≠ [] := by
    intro h
    exact hne (String.ext h)
  have hB : cleanUpstream j = pyStrip j := by
    have h : cleanFencesL (pyStripL j.data) = pyStripL j.data := by
      rw [cleanFencesL, if_neg]
      rw [startsWith_fence_false _ hstrip]
      simp
    exact congrArg String.mk h
  have hd3 : "```".data = [btick, btick, btick] := by decide
  have hwdata : ("```" ++ tag ++ j ++ "```").data
      = btick :: btick :: btick :: (tag.data ++ (j.data ++ [btick, btick, btick])) := by
    simp [hd3, List.append_assoc]
    decide
  have hA : cleanUpstream ("```" ++ tag ++ j ++ "```") = pyStrip j := by
    have hself : pyStripL (btick :: btick :: btick ::
        (tag.data ++ (j.data ++ [btick, btick, btick])))
        = btick :: btick :: btick :: (tag.data ++ (j.data ++ [btick, btick, btick])) := by
      apply pyStripL_eq_self
      · intro c hc
        have : btick = c := by simpa using hc
        subst this
        decide
      · intro c hc
        have hr : (btick :: btick :: btick ::
            (tag.data ++ (j.data ++ [btick, btick, btick]))).reverse.head?
            = some btick := by
          simp
        rw [hr] at hc
        have : btick = c := by simpa using hc
        subst this
        decide
    show String.mk (cleanFencesL (pyStripL ("```" ++ tag ++ j ++ "```").data)) = pyStrip j
    rw [hwdata, hself, cleanFencesL_fenced tag.data j.data ?ht hjdne hhead]
    case ht =>
      rcases htag with h | ⟨h1, h2⟩
      · exact Or.inl h
      · exact Or.inr ⟨by simp [h1], h2⟩
    rfl
  exact ⟨hA.trans hB.symm, hB, fun parse => by rw [hA.trans hB.symm]⟩

/-- C4 witness: the cleaning theorem applied to a concrete JSON text, with the
`json` tag (in mixed case) and with no tag. -/
theorem C4_fence_clean_witness :
    cleanUpstream ("```" ++ "JSon" ++ "[1, 2]" ++ "```") = "[1, 2]" ∧
    cleanUpstream ("```" ++ "" ++ "[1, 2]" ++ "```") = "[1, 2]" := by
  have h1 := C4_fence_clean "JSon" "[1, 2]" (Or.inl (by decide)) (by decide)
    (by decide) (by decide)
  have h2 := C4_fence_clean "" "[1, 2]" (Or.inr ⟨rfl, by decide⟩) (by decide)
    (by decide) (by decide)
  constructor
  · exact (h1.1.trans h1.2.1).trans (by decide)
  · exact (h2.1.trans h2.2.1).trans (by decide)

/-- C5: when the upstream 200 text extraction succeeds and the cleaned text
does not parse as JSON, `/analyze` returns HTTP 500 with a payload that
carries the cleaned text verbatim under `"raw"`. -/
theorem C5_invalid_upstream_json (parse : String → Option PyVal) (body : PyVal)
    (raw : String) (hraw : extractTextRaw body = some raw)
    (hparse : parse (cleanUpstream raw) = Option.none) :
    on200 parse body = some (invalidJsonResp (cleanUpstream raw)) := by
  simp [on200, hraw, hparse]

/-- C5 witness: a well-shaped upstream body whose text part is not JSON gets
the 500 response carrying that text. -/
theorem C5_invalid_upstream_json_witness :
    on200 (fun _ => Option.none)
      (PyVal.dict [("candidates", PyVal.list [PyVal.dict [("content",
        PyVal.dict [("parts", PyVal.list [PyVal.dict [("text",
          PyVal.str "not a json value")]])])]])])
      = some (invalidJsonResp "not a json value") := by
  exact C5_invalid_upstream_json (fun _ => Option.none) _ "not a json value" rfl rfl

/-- C9: an upstream 200 body lacking `candidates`, or whose first candidate
lacks `content`, `parts`, or `text`, does not crash the extraction: the
nested lookups default, the extracted text is `""`, and the handler answers
the 500 invalid-JSON response with raw text `""`. -/
theorem C9_missing_keys_default (parse : String → Option PyVal) (body : PyVal)
    (hparse : parse "" = Option.none) (hshape : C9Shape body) :
    extractTextRaw body = some "" ∧ on200 parse body = some (invalidJsonResp "") := by
  obtain ⟨d, rfl, hcase⟩ := hshape
  have hraw : extractTextRaw (PyVal.dict d) = some "" := by
    rcases hcase with h | ⟨c0, rest, h, hcase2⟩
    · simp [extractTextRaw, dictGet, dlookup, h, index0, asStr]
    · rcases hcase2 with h2 | ⟨ct, h2, hcase3⟩
      · simp [extractTextRaw, dictGet, dlookup, h, h2, index0, asStr]
      · rcases hcase3 with h3 | ⟨p0, prest, h3, h4⟩
        · simp [extractTextRaw, dictGet, dlookup, h, h2, h3, index0, asStr]
        · simp [extractTextRaw, dictGet, dlookup, h, h2, h3, h4, index0, asStr]
  refine ⟨hraw, ?_⟩
  have hclean : cleanUpstream "" = "" := rfl
  simp [on200, hraw, hclean, hparse]

/-- C9 witness: the empty upstream object (no `candidates` key) yields the
500 response with raw text `""`. -/
theorem C9_missing_keys_default_witness :
    extractTextRaw (PyVal.dict []) = some "" ∧
    on200 (fun _ => Option.none) (PyVal.dict []) = some (invalidJsonResp "") := by
  exact C9_missing_keys_default (fun _ => Option.none) (PyVal.dict []) rfl
    ⟨[], rfl, Or.inl rfl⟩

/-- C6 counterexample: a request body carrying `"text": ""` passes the
`"text" not in data` check, so `buildDocx("")` does not fail with
`MissingText` — it returns a zero-paragraph document. -/
theorem C6_empty_text_counterexample :
    text_to_docx (PyVal.dict [("text", PyVal.str "")]) = some (DocxResp.sent []) ∧
    text_to_docx (PyVal.dict [("text", PyVal.str "")]) ≠ some DocxResp.badRequest := by
  exact ⟨rfl, by decide⟩

/-- C6 amended: `buildDocx("Para one.\n\nPara two.")` yields exactly the two
paragraphs `"Para one."`, `"Para two."` in order; `buildDocx("")` succeeds
with a zero-paragraph document; the 400 missing-text error occurs only when
the body is falsy or lacks the `"text"` key. -/
theorem C6_build_docx_amended :
    text_to_docx (PyVal.dict [("text", PyVal.str "Para one.\n\nPara two.")])
      = some (DocxResp.sent ["Para one.", "Para two."]) ∧
    text_to_docx (PyVal.dict [("text", PyVal.str "")]) = some (DocxResp.sent []) ∧
    text_to_docx (PyVal.dict [("other", PyVal.int 1)]) = some DocxResp.badRequest ∧
    text_to_docx PyVal.none = some DocxResp.badRequest := by
  refine ⟨by decide, rfl, rfl, rfl⟩

/-- C7: on an input with single line breaks and no blank line the code does
NOT fall back to splitting on single newlines (despite its own comment
"fall back to single"): the whole text becomes one paragraph. -/
theorem C7_no_single_newline_fallback :
    splitParas "Line one\nLine two" = ["Line one\nLine two"] ∧
    text_to_docx (PyVal.dict [("text", PyVal.str "Line one\nLine two")])
      = some (DocxResp.sent ["Line one\nLine two"]) := by
  exact ⟨by decide, by decide⟩

/-- C10 counterexample: a truthy non-container body (the JSON number `5`)
makes `"text" not in data` raise a `TypeError`, so the handler crashes (500)
instead of returning the 400 missing-text error the claim promises for every
non-object body. -/
theorem C10_nonobject_counterexample :
    text_to_docx (PyVal.int 5) = Option.none ∧
    text_to_docx (PyVal.int 5) ≠ some DocxResp.badRequest := by
  exact ⟨rfl, by decide⟩

theorem splitParas_length (t : String) :
    (splitParas t).length
      = ((splitOnNN (replaceCRLF t.data)).filter
          (fun seg => pyStripL seg ≠ ([] : List Char))).length := by
  rw [splitParas, List.filter_map, List.length_map]
  congr 1
  apply List.filter_congr
  intro seg _
  by_cases h : pyStripL seg = []
  · simp [h]
  · have hne : (⟨pyStripL seg⟩ : String) ≠ "" := fun hc => h (congrArg String.data hc)
    simp [h, hne]

/-- C10 amended: the handler returns the 400 missing-text error exactly when
the body is falsy or is a container (string, list, or dict) whose `in` check
for `"text"` fails; a truthy non-container body raises `TypeError` (500)
rather than returning 400; and every object body mapping `"text"` to a
string — including the empty or whitespace-only string — succeeds with a
document whose paragraph count is the number of non-empty trimmed segments
(zero paragraphs for empty input). -/
theorem C10_text_to_docx_amended (data : PyVal) :
    (text_to_docx data = some DocxResp.badRequest ↔
      (pyTruthy data = false ∨ pyContains data "text" = some false)) ∧
    (pyTruthy data = true → pyContains data "text" = Option.none →
      text_to_docx data = Option.none) ∧
    (∀ d t, data = PyVal.dict d → dlookup d "text" = some (PyVal.str t) →
      text_to_docx data = some (DocxResp.sent (splitParas t)) ∧
      (splitParas t).length
        = ((splitOnNN (replaceCRLF t.data)).filter
            (fun seg => pyStripL seg ≠ ([] : List Char))).length) := by
  refine ⟨?_, ?_, ?_⟩
  · cases data with
    | none => simp [text_to_docx, pyTruthy]
    | bool b => cases b <;> simp [text_to_docx, pyTruthy, pyContains]
    | int n =>
      by_cases h : n = 0 <;> simp [text_to_docx, pyTruthy, pyContains, h]
    | str s =>
      by_cases h : s = ""
      · simp [text_to_docx, pyTruthy, pyContains, h]
      · cases hc : containsSub "text".data s.data <;>
          simp [text_to_docx, pyTruthy, pyContains, h, hc]
    | list l =>
      by_cases h : l.isEmpty = true
      · simp [text_to_docx, pyTruthy, h]
      · cases hc : l.any (fun x => pyEqStr x "text") <;>
          simp [text_to_docx, pyTruthy, pyContains, h, hc]
    | dict d =>
      by_cases h : d.isEmpty = true
      · simp [text_to_docx, pyTruthy, h]
      · cases hc : (dlookup d "text").isSome
        · simp [text_to_docx, pyTruthy, pyContains, h, hc]
        · obtain ⟨v, hv⟩ := Option.isSome_iff_exists.mp hc
          cases v <;> simp [text_to_docx, pyTruthy, pyContains, h, hc, hv]
  · intro ht hc
    simp [text_to_docx, ht, hc]
  · rintro d t rfl htext
    refine ⟨?_, splitParas_length t⟩
    have hne : d.isEmpty = false := by
      cases d with
      | nil => simp [dlookup] at htext
      | cons p r => rfl
    simp [text_to_docx, pyTruthy, pyContains, hne, htext]

/-- C10 witness: the amended characterization applied to a concrete object
body (with whitespace and blank lines) and to a concrete truthy string body
not containing `"text"`. -/
theorem C10_text_to_docx_amended_witness :
    text_to_docx (PyVal.dict [("text", PyVal.str " a \n\n\nb")])
      = some (DocxResp.sent ["a", "b"]) ∧
    text_to_docx (PyVal.str "no body here") = some DocxResp.badRequest := by
  constructor
  · have h := (C10_text_to_docx_amended
      (PyVal.dict [("text", PyVal.str " a \n\n\nb")])).2.2
      [("text", PyVal.str " a \n\n\nb")] " a \n\n\nb" rfl rfl
    exact h.1.trans (by decide)
  · exact ((C10_text_to_docx_amended (PyVal.str "no body here")).1).mpr
      (Or.inr (by decide))

theorem utf8DecodeCp_encode (n : Nat) (h : Nat.isValidChar n) (rest : List Nat) :
    utf8DecodeCp (utf8EncodeCp n ++ rest)
      = (utf8DecodeCp rest).map (fun r => n :: r) := by
  have hv : n < 0xd800 ∨ (0xdfff < n ∧ n < 0x110000) := h
  by_cases h1 : n < 0x80
  · rw [utf8EncodeCp, if_pos h1]
    rcases rest with _ | ⟨r1, _ | ⟨r2, _ | ⟨r3, rr⟩⟩⟩ <;>
      simp only [List.cons_append, List.nil_append] <;>
      simp only [utf8DecodeCp, if_pos h1, Option.map_some']
  · by_cases h2 : n < 0x800
    · rw [utf8EncodeCp, if_neg h1, if_pos h2]
      have ha : ¬(0xC0 + n / 64 < 0x80) := by omega
      have hc : 0xC2 ≤ 0xC0 + n / 64 ∧ 0xC0 + n / 64 < 0xE0 ∧
          0x80 ≤ 0x80 + n % 64 ∧ 0x80 + n % 64 < 0xC0 := by omega
      have hval : val2 (0xC0 + n / 64) (0x80 + n % 64) = n := by
        rw [val2]
        omega
      rcases rest with _ | ⟨r1, _ | ⟨r2, rr⟩⟩
      · simp only [List.cons_append, List.nil_append]
        simp only [utf8DecodeCp]
        rw [if_neg ha, if_pos hc]
        simp only [hval, Option.map_some']
      · simp only [List.cons_append, List.nil_append]
        simp only [utf8DecodeCp]
        rw [if_neg ha, if_pos hc]
        simp only [hval]
      · simp only [List.cons_append, List.nil_append]
        simp only [utf8DecodeCp]
        rw [if_neg ha, if_pos hc]
        simp only [hval]
    · by_cases h3 : n < 0x10000
      · rw [utf8EncodeCp, if_neg h1, if_neg h2, if_pos h3]
        have ha : ¬(0xE0 + n / 4096 < 0x80) := by omega
        have hb : ¬(0xC2 ≤ 0xE0 + n / 4096 ∧ 0xE0 + n / 4096 < 0xE0 ∧
            0x80 ≤ 0x80 + n / 64 % 64 ∧ 0x80 + n / 64 % 64 < 0xC0) := by omega
        have hc : 0xE0 ≤ 0xE0 + n / 4096 ∧ 0xE0 + n / 4096 < 0xF0 ∧
            0x80 ≤ 0x80 + n / 64 % 64 ∧ 0x80 + n / 64 % 64 < 0xC0 ∧
            (0xE0 + n / 4096 = 0xE0 → 0xA0 ≤ 0x80 + n / 64 % 64) ∧
            (0xE0 + n / 4096 = 0xED → 0x80 + n / 64 % 64 < 0xA0) ∧
            0x80 ≤ 0x80 + n % 64 ∧ 0x80 + n % 64 < 0xC0 := by omega
        have hval : val3 (0xE0 + n / 4096) (0x80 + n / 64 % 64) (0x80 + n % 64)
            = n := by
          rw [val3]
          omega
        rcases rest with _ | ⟨r1, rr⟩
        · simp only [List.cons_append, List.nil_append]
          simp only [utf8DecodeCp]
          rw [if_neg ha, if_neg hb, if_pos hc]
          simp only [hval, Option.map_some']
        · simp only [List.cons_append, List.nil_append]
          simp only [utf8DecodeCp]
          rw [if_neg ha, if_neg hb, if_pos hc]
          simp only [hval]
      · rw [utf8EncodeCp, if_neg h1, if_neg h2, if_neg h3]
        have ha : ¬(0xF0 + n / 262144 < 0x80) := by omega
        have hb : ¬(0xC2 ≤ 0xF0 + n / 262144 ∧ 0xF0 + n / 262144 < 0xE0 ∧
            0x80 ≤ 0x80 + n / 4096 % 64 ∧ 0x80 + n / 4096 % 64 < 0xC0) := by omega
        have hb3 : ¬(0xE0 ≤ 0xF0 + n / 262144 ∧ 0xF0 + n / 262144 < 0xF0 ∧
            0x80 ≤ 0x80 + n / 4096 % 64 ∧ 0x80 + n / 4096 % 64 < 0xC0 ∧
            (0xF0 + n / 262144 = 0xE0 → 0xA0 ≤ 0x80 + n / 4096 % 64) ∧
            (0xF0 + n / 262144 = 0xED → 0x80 + n / 4096 % 64 < 0xA0) ∧
            0x80 ≤ 0x80 + n / 64 % 64 ∧ 0x80 + n / 64 % 64 < 0xC0) := by omega
        have hc : 0xF0 ≤ 0xF0 + n / 262144 ∧ 0xF0 + n / 262144 < 0xF5 ∧
            0x80 ≤ 0x80 + n / 4096 % 64 ∧ 0x80 + n / 4096 % 64 < 0xC0 ∧
            (0xF0 + n / 262144 = 0xF0 → 0x90 ≤ 0x80 + n / 4096 % 64) ∧
            (0xF0 + n / 262144 = 0xF4 → 0x80 + n / 4096 % 64 < 0x90) ∧
            0x80 ≤ 0x80 + n / 64 % 64 ∧ 0x80 + n / 64 % 64 < 0xC0 ∧
            0x80 ≤ 0x80 + n % 64 ∧ 0x80 + n % 64 < 0xC0 := by omega
        have hval : val4 (0xF0 + n / 262144) (0x80 + n / 4096 % 64)
            (0x80 + n / 64 % 64) (0x80 + n % 64) = n := by
          rw [val4]
          omega
        simp only [List.cons_append, List.nil_append]
        simp only [utf8DecodeCp]
        rw [if_neg ha, if_neg hb, if_neg hb3, if_pos hc]
        simp only [hval]

theorem utf8DecodeCp_encodeChars (cs : List Char) :
    utf8DecodeCp (encodeChars cs) = some (cs.map Char.toNat) := by
  induction cs with
  | nil => rfl
  | cons c cs ih =>
    rw [encodeChars, utf8DecodeCp_encode c.toNat c.valid, ih]
    rfl

/-- C8: extracting text from a `.txt` upload whose bytes UTF-8-encode a
string `s` returns `s` trimmed (the round trip through encoding, strict
decoding, and `.strip()`), and a byte sequence that is not valid UTF-8 makes
the TXT branch fail instead of returning text. -/
theorem C8_txt_roundtrip :
    (∀ s : String, extractTxt (utf8Encode s) = some (pyStrip s)) ∧
    (∀ bs : List Nat, utf8DecodeCp bs = Option.none →
      extractTxt bs = Option.none) := by
  constructor
  · intro s
    rw [extractTxt, utf8Encode, utf8DecodeCp_encodeChars]
    show some (pyStrip ⟨(s.data.map Char.toNat).map Char.ofNat⟩) = some (pyStrip s)
    rw [List.map_map]
    have hid : List.map (Char.ofNat ∘ Char.toNat) s.data = List.map id s.data :=
      List.map_congr_left (fun c _ => Char.ofNat_toNat c)
    rw [hid, List.map_id]
  · intro bs hfail
    rw [extractTxt, hfail]
    rfl

/-- C8 witness: the TXT branch on the UTF-8 bytes of a concrete string (with
a two-byte character and surrounding whitespace), and on the invalid byte
`0xFF`. -/
theorem C8_txt_roundtrip_witness :
    extractTxt (utf8Encode " héllo\n") = some "héllo" ∧
    extractTxt [255] = Option.none := by
  constructor
  · exact (C8_txt_roundtrip.1 " héllo\n").trans (by decide)
  · exact C8_txt_roundtrip.2 [255] (by decide)

